import Mathlib

/-!
Shallow embedding of the libcellml `Validator` (src/validator.cpp) in Lean 4.

The entity tree (Model / Component / Units / Variable) is the read-only input
supplied by a collaborator; errors are the output.  External collaborators
(the XML parser, the MathML DTD validator, the node serializer and the Units
entity's own per-unit validator) are passed in as function parameters, so
every theorem is quantified over them unless a claim pins them down.
-/

namespace LibCellML

/-- An XML attribute as seen through the XmlAttribute wrapper: `isType`
compares the name, `getValue` returns the value. -/
structure XmlAttr where
  type : String
  value : String
deriving DecidableEq, Repr

/-- An XML node as seen through the XmlNode wrapper: `getType`, its text
content (`convertToString` of a text node), its attributes in order
(`getFirstAttribute` / `getNext`) and its children in order
(`getFirstChild` / `getNext`). -/
inductive XmlNode where
  | mk (type : String) (text : String) (attrs : List XmlAttr) (children : List XmlNode)

/-- The node's element type (`getType`). -/
def XmlNode.type : XmlNode → String
  | .mk t _ _ _ => t

/-- The node's text content (`convertToString` on a text node). -/
def XmlNode.text : XmlNode → String
  | .mk _ s _ _ => s

/-- The node's attribute list. -/
def XmlNode.attrs : XmlNode → List XmlAttr
  | .mk _ _ a _ => a

/-- The node's children, first child followed by its siblings. -/
def XmlNode.children : XmlNode → List XmlNode
  | .mk _ _ _ c => c

/-- The result of handing a string to the XmlDoc collaborator: the XML error
strings (`xmlErrorCount` / `getXmlError`) and the root node (`getRootNode`,
which may be null). -/
structure XmlDoc where
  xmlErrors : List String
  root : Option XmlNode

/-- The Variable entity: `getName`, `getUnits`, `getInterfaceType`,
`getInitialValue`. -/
structure VariableE where
  name : String
  units : String
  interfaceType : String
  initialValue : String
deriving DecidableEq, Repr

/-- The Units entity: `getName`, `isImport`, `getImportReference` and the
source locator of its Import (`getImport()->getSource()`). -/
structure UnitsE where
  name : String
  isImport : Bool
  importReference : String
  importSource : String
deriving DecidableEq, Repr

/-- The Component entity: `getName`, its Units list, its Variable list, the
math string (`getMath`), `isImport`, `getImportReference` and
`getImport()->getSource()`. -/
structure ComponentE where
  name : String
  units : List UnitsE
  vars : List VariableE
  math : String
  isImport : Bool
  importReference : String
  importSource : String
deriving DecidableEq, Repr

/-- The Model entity: `getName`, its Component list and its Units list. -/
structure ModelE where
  name : String
  components : List ComponentE
  units : List UnitsE
deriving DecidableEq, Repr

/-- Modelled from the spec: the Component accessor `hasUnits(name)` (the
entity classes are outside the staged source); per the spec it asks whether
"the host Component does not declare a Units by that name", so it checks the
component's declared Units names. -/
def ComponentE.hasUnits (c : ComponentE) (n : String) : Bool :=
  c.units.any (fun u => u.name == n)

/-- `Error::Kind`. -/
inductive ErrorKind where
  | MODEL | COMPONENT | UNITS | VARIABLE | IMPORT | XML | MATHML
deriving DecidableEq, Repr

/-- The subject entity attached to an error by `setModel` / `setComponent` /
`setUnits` / `setVariable` / `setImport`; `noSubject` when none is set (the
XML parse errors copied at the top of `validateMath` set no subject).  An
Import object is identified by its source locator. -/
inductive ErrorSubject where
  | noSubject
  | modelS (m : ModelE)
  | componentS (c : ComponentE)
  | unitsS (u : UnitsE)
  | variableS (v : VariableE)
  | importS (source : String)
deriving DecidableEq, Repr

/-- The Error entity: description, kind and subject. -/
structure ErrorE where
  description : String
  kind : ErrorKind
  subject : ErrorSubject
deriving DecidableEq, Repr

/-- The external collaborators `validateModel` calls into: the Units entity's
`getUnitValidationErrors`, the XmlDoc `parse` and `parseMathML` entry points
and the node serializer `convertToString`. -/
structure Collaborators where
  uve : UnitsE → List String → List String
  parse : String → XmlDoc
  parseMathML : String → XmlDoc
  serialize : XmlNode → String

/-- The white-space characters of `" \t\n\v\f\r"` used by
`isNotWhitespace` (and skipped by `std::stod`). -/
def isSpaceC (c : Char) : Bool :=
  c = ' ' || c = '\t' || c = '\n' || c = Char.ofNat 11 || c = Char.ofNat 12 || c = '\r'

/-- `Validator::ValidatorImpl::isNotWhitespace`:
`input.find_first_not_of(" \t\n\v\f\r") != input.npos`. -/
def isNotWhitespace (input : String) : Bool :=
  input.data.any (fun c => !isSpaceC c)

/-- The 34 standard unit names, in the order the enum loop over
`standardUnitToStringTemp` assembles them (AMPERE .. WEBER). -/
def standardUnitNames : List String :=
  ["ampere", "becquerel", "candela", "celsius", "coulomb", "dimensionless",
   "farad", "gram", "gray", "henry", "hertz", "joule", "katal", "kelvin",
   "kilogram", "liter", "litre", "lumen", "lux", "meter", "metre", "mole",
   "newton", "ohm", "pascal", "radian", "second", "siemens", "sievert",
   "steradian", "tesla", "volt", "watt", "weber"]

/-- `std::find(v.begin(), v.end(), x) - v.begin()`: the index of the first
occurrence of `x`, or the length of the list when `x` does not occur. -/
def findIndexStd (l : List String) (x : String) : Nat :=
  match l with
  | [] => 0
  | y :: ys => if y = x then 0 else findIndexStd ys x + 1

/-- Drop an optional leading `+` or `-`. -/
def afterSign (l : List Char) : List Char :=
  match l with
  | c :: r => if c = '+' || c = '-' then r else c :: r
  | [] => []

/-- Whether the character sequence starts with the given ASCII word,
case-insensitively. -/
def startsWithCI : List Char → List Char → Bool
  | [], _ => true
  | _ :: _, [] => false
  | w :: ws, c :: cs => (c.toLower = w) && startsWithCI ws cs

/-- Whether, after an optional sign, a decimal subject sequence begins:
at least one digit, or a dot followed by at least one digit.  (A hex input
`0x…` is covered by its leading `0`.) -/
def decimalAccept (l : List Char) : Bool :=
  match l with
  | [] => false
  | c :: r =>
    if c.isDigit then true
    else if c = '.' then
      match r with
      | d :: _ => d.isDigit
      | [] => false
    else false

/-- Modelled from the C standard's `strtod` (which `std::stod` wraps, outside
the staged source): leading white-space is skipped, then an optional sign,
then the longest valid prefix is converted — digits with an optional dot,
a dot with digits, an `inf`/`infinity` or a `nan` form.  Conversion fails
(`std::invalid_argument`) exactly when no such prefix exists.  The
`std::out_of_range` overflow case is not modelled. -/
def stodAccepts (s : String) : Bool :=
  decimalAccept (afterSign (s.data.dropWhile isSpaceC))
    || startsWithCI "inf".data (afterSign (s.data.dropWhile isSpaceC))
    || startsWithCI "nan".data (afterSign (s.data.dropWhile isSpaceC))

/-- `Validator::catchDoubleConversionError`: true exactly when
`std::stod(input)` throws. -/
def catchDoubleConversionError (input : String) : Bool :=
  !stodAccepts input

/-- The optional scientific exponent of the spec's lexical rule:
empty, or `(e|E) sign? digit+` consuming the rest of the string. -/
def specLexicalExponent (l : List Char) : Bool :=
  match l with
  | [] => true
  | e :: rest =>
    if e = 'e' || e = 'E' then
      (!((afterSign rest).takeWhile Char.isDigit).isEmpty)
        && ((afterSign rest).dropWhile Char.isDigit).isEmpty
    else false

/-- The optional fractional part (`. digit+`) of the spec's lexical rule,
followed by the optional exponent. -/
def specLexicalFraction (l : List Char) : Bool :=
  match l with
  | '.' :: r =>
    (!(r.takeWhile Char.isDigit).isEmpty)
      && specLexicalExponent (r.dropWhile Char.isDigit)
  | _ => specLexicalExponent l

/-- The spec's lexical rule for a real-number literal, written from the
spec's words only ("optional sign, integer part, optional fractional part,
optional scientific exponent", with no whitespace trimming): the whole
string must match `sign? digit+ (. digit+)? ((e|E) sign? digit+)?`. -/
def specLexicalDouble (s : String) : Bool :=
  (!((afterSign s.data).takeWhile Char.isDigit).isEmpty)
    && specLexicalFraction ((afterSign s.data).dropWhile Char.isDigit)

/-- First occurrence of `pat` in `s` (`std::string::find`), or `none`. -/
def firstOccurrence (s pat : List Char) : Option Nat :=
  if pat.isPrefixOf s then some 0
  else
    match s with
    | [] => none
    | _ :: rest => (firstOccurrence rest pat).map (· + 1)

/-- Fuelled loop body of `removeSubstring`. -/
def removeSubstringAux (pat : List Char) : Nat → List Char → List Char
  | 0, s => s
  | fuel + 1, s =>
    match firstOccurrence s pat with
    | none => s
    | some i =>
      if pat.isEmpty then s
      else removeSubstringAux pat fuel (s.take i ++ s.drop (i + pat.length))

/-- `Validator::ValidatorImpl::removeSubstring`: repeatedly erase the first
occurrence of `pat` until none remains.  (On an empty pattern the C++ loop
never terminates; the one call site passes a fixed non-empty literal, for
which the fuel `input.length + 1` is plainly enough.) -/
def removeSubstring (input pat : String) : String :=
  String.mk (removeSubstringAux pat.data (input.length + 1) input.data)

/-- `Validator::validateVariable`. -/
def validateVariable (v : VariableE) (variableNames : List String) : List ErrorE :=
  (if v.name.length = 0 then
     [⟨"Variable does not have a valid name attribute.", .VARIABLE, .variableS v⟩]
   else [])
  ++ (if v.units.length = 0 then
     [⟨"Variable '" ++ v.name ++ "' does not have a valid units attribute.",
       .VARIABLE, .variableS v⟩]
   else [])
  ++ (if v.interfaceType.length ≠ 0 then
        if v.interfaceType ≠ "public" ∧ v.interfaceType ≠ "private" ∧
           v.interfaceType ≠ "none" ∧ v.interfaceType ≠ "public_and_private" then
          [⟨"Variable '" ++ v.name ++ "' has an invalid interface attribute value '"
             ++ v.interfaceType ++ "'.", .VARIABLE, .variableS v⟩]
        else []
      else [])
  ++ (if v.initialValue.length ≠ 0 then
        if variableNames.contains v.initialValue then []
        else if catchDoubleConversionError v.initialValue then
          [⟨"Variable '" ++ v.name ++ "' has an invalid initial value '" ++ v.initialValue
             ++ "'. Initial values must be a real number string or a variable reference.",
            .VARIABLE, .variableS v⟩]
        else []
      else [])

/-- `Validator::validateUnits` (the collaborator field `uve` stands for the
Units entity's `getUnitValidationErrors`). -/
def validateUnits (C : Collaborators) (units : UnitsE) (unitsNames : List String) :
    List ErrorE :=
  (if units.name.length = 0 then
     [⟨"Units does not have a valid name attribute.", .UNITS, .unitsS units⟩]
   else if standardUnitNames.contains units.name then
     [⟨"Units is named '" ++ units.name ++ "', which is a protected standard unit name.",
       .UNITS, .unitsS units⟩]
   else [])
  ++ (C.uve units unitsNames).map (fun d => ⟨d, .UNITS, .unitsS units⟩)

/-- `Validator::ValidatorImpl::gatherMathBvarVariableNames`, recast over the
list of a node and its following siblings (the C++ walks siblings by
reassigning the by-reference node argument); `acc` is the by-reference
accumulating name list. -/
def gatherMathBvarVariableNames : List XmlNode → List String → List String
  | [], acc => acc
  | XmlNode.mk t _ _ children :: rest, acc =>
    let acc2 :=
      if t == "bvar" then
        match children with
        | c :: _ =>
          if c.type == "ci" then
            match c.children with
            | g :: _ =>
              if g.type == "text" && isNotWhitespace g.text then acc ++ [g.text]
              else acc
            | [] => acc
          else acc
        | [] => acc
      else gatherMathBvarVariableNames children acc
    gatherMathBvarVariableNames rest acc2

/-- The attribute loop of `validateAndCleanMathCiCnNodes`: scans the
attributes in order, capturing the value and position of the last non-empty
`units` attribute (the C++ overwrites on each hit) and emitting an "invalid
attribute type" error for every other non-empty attribute. -/
def ciCnAttrScan (component : ComponentE) (nodeType : String) :
    List XmlAttr → Nat → String → Option Nat → List ErrorE →
    (String × Option Nat × List ErrorE)
  | [], _, u, idx, errs => (u, idx, errs)
  | a :: rest, i, u, idx, errs =>
    if a.value.length > 0 then
      if a.type == "units" then
        ciCnAttrScan component nodeType rest (i + 1) a.value (some i) errs
      else
        ciCnAttrScan component nodeType rest (i + 1) u idx
          (errs ++ [⟨"Math " ++ nodeType ++ " element has an invalid attribute type '"
                      ++ a.type ++ "' in the cellml namespace.",
                    .MATHML, .componentS component⟩])
    else ciCnAttrScan component nodeType rest (i + 1) u idx errs

/-- The text-child checks of a `ci`/`cn` node (lines 521-562 of the source),
applied to the node's child list (only the first child is inspected). -/
def ciCnChildErrors (component : ComponentE) (variableNames bvarNames : List String)
    (nodeType : String) : List XmlNode → List ErrorE
  | [] => [⟨"MathML " ++ nodeType ++ " element has no child.", .MATHML,
            .componentS component⟩]
  | c :: _ =>
    if c.type == "text" then
      let textNode := c.text
      if isNotWhitespace textNode then
        if nodeType == "ci" then
          if !variableNames.contains textNode && !bvarNames.contains textNode then
            [⟨"MathML ci element has the child text '" ++ textNode
               ++ "', which does not correspond with any variable names present in component '"
               ++ component.name ++ "' and is not a variable defined within a bvar element.",
              .MATHML, .componentS component⟩]
          else []
        else if nodeType == "cn" then
          if catchDoubleConversionError textNode then
            [⟨"MathML cn element has the value '" ++ textNode
               ++ "', which cannot be converted to a real number.",
              .MATHML, .componentS component⟩]
          else []
        else []
      else
        [⟨"MathML " ++ nodeType ++ " element has a whitespace-only child element.",
          .MATHML, .componentS component⟩]
    else []

/-- The `textNode` local of the source: set only when the first child exists
and is a text node, empty otherwise. -/
def ciCnTextNode : List XmlNode → String
  | [] => ""
  | c :: _ => if c.type == "text" then c.text else ""

/-- The `cellml:units` presence/validity checks of a `ci`/`cn` node
(lines 584-618 of the source). -/
def ciCnUnitsErrors (component : ComponentE)
    (nodeType parentType textNode unitsName : String) : List ErrorE :=
  if unitsName.length = 0 then
    if nodeType == "cn" then
      [⟨"Math cn element with the value '" ++ textNode
         ++ "' does not have a cellml:units attribute.", .MATHML, .componentS component⟩]
    else if parentType == "bvar" then
      [⟨"Math bvar ci element with the value '" ++ textNode
         ++ "' does not have a valid cellml:units attribute.", .MATHML,
        .componentS component⟩]
    else []
  else if component.hasUnits unitsName then []
  else if standardUnitNames.contains unitsName then []
  else
    [⟨"Math has a " ++ nodeType ++ " element with a cellml:units attribute '" ++ unitsName
       ++ "' that is not a valid reference to units in component '" ++ component.name
       ++ "' or a standard unit.", .MATHML, .componentS component⟩]

/-- `Validator::ValidatorImpl::validateAndCleanMathCiCnNodes`, recast over
the list of a node and its following siblings; `parentType` is the type of
their common parent (`getParent`).  Returns the errors in emission order and
the cleaned sibling list (each captured `cellml:units` attribute removed;
for a `ci`/`cn` node the children are not descended into). -/
def validateAndCleanMathCiCnNodes (component : ComponentE)
    (variableNames bvarNames : List String) :
    String → List XmlNode → (List ErrorE × List XmlNode)
  | _, [] => ([], [])
  | parentType, XmlNode.mk t txt attrs children :: rest =>
    if t == "ci" || t == "cn" then
      let childErrs := ciCnChildErrors component variableNames bvarNames t children
      let scan := ciCnAttrScan component t attrs 0 "" none []
      let unitsErrs := ciCnUnitsErrors component t parentType (ciCnTextNode children) scan.1
      let cleaned := XmlNode.mk t txt
        (match scan.2.1 with | none => attrs | some i => attrs.eraseIdx i) children
      let restRes :=
        validateAndCleanMathCiCnNodes component variableNames bvarNames parentType rest
      (childErrs ++ scan.2.2 ++ unitsErrs ++ restRes.1, cleaned :: restRes.2)
    else
      let childRes :=
        validateAndCleanMathCiCnNodes component variableNames bvarNames t children
      let restRes :=
        validateAndCleanMathCiCnNodes component variableNames bvarNames parentType rest
      (childRes.1 ++ restRes.1, XmlNode.mk t txt attrs childRes.2 :: restRes.2)

/-- `Validator::ValidatorImpl::validateMath`. -/
def validateMath (C : Collaborators) (input : String) (component : ComponentE)
    (variableNames : List String) : List ErrorE :=
  let doc := C.parse input
  let xmlErrs := doc.xmlErrors.map (fun d => (⟨d, .XML, .noSubject⟩ : ErrorE))
  match doc.root with
  | none =>
    xmlErrs ++ [⟨"Could not get a valid XML root node from the math on component '"
                  ++ component.name ++ "'.", .XML, .componentS component⟩]
  | some node =>
    if !(node.type == "math") then
      xmlErrs ++ [⟨"Math root node is of invalid type '" ++ node.type
                    ++ "' on component '" ++ component.name
                    ++ "'. A valid math root node should be of type 'math'.",
                  .XML, .componentS component⟩]
    else
      let bvarNames := gatherMathBvarVariableNames [node] []
      let collisionErrs := (variableNames.filter (fun vn => bvarNames.contains vn)).map
        (fun vn => (⟨"Math in component '" ++ component.name ++ "' contains '" ++ vn
                      ++ "' as a bvar ci element but it is already a variable name.",
                    .MATHML, .componentS component⟩ : ErrorE))
      let walkRes :=
        validateAndCleanMathCiCnNodes component variableNames bvarNames "" [node]
      let mathNode := match walkRes.2 with | c :: _ => c | [] => node
      let cellml2NamespaceString := " xmlns:cellml=\"http://www.cellml.org/cellml/2.0#\""
      let cleanMathml := removeSubstring (C.serialize mathNode) cellml2NamespaceString
      let mathmlDoc := C.parseMathML cleanMathml
      let dtdErrs := mathmlDoc.xmlErrors.map
        (fun d => (⟨d, .MATHML, .componentS component⟩ : ErrorE))
      xmlErrs ++ collisionErrs ++ walkRes.1 ++ dtdErrs

/-- The duplicate-units-name pass of `validateComponent` (lines 296-312 of
the source): walks the component's Units list, accumulating the non-empty
names and emitting a duplicate error before each repeated push. -/
def componentUnitsDupPass (component : ComponentE) :
    List UnitsE → List String → (List String × List ErrorE)
  | [], names => (names, [])
  | u :: rest, names =>
    if u.name.length ≠ 0 then
      let e := if names.contains u.name then
          [⟨"Component '" ++ component.name ++ "' contains multiple units with the name '"
             ++ u.name ++ "'. Valid units names should be unique to their component.",
            .COMPONENT, .componentS component⟩]
        else []
      let (ns, es) := componentUnitsDupPass component rest (names ++ [u.name])
      (ns, e ++ es)
    else componentUnitsDupPass component rest names

/-- The duplicate-variable-name pass of `validateComponent` (lines 324-338
of the source). -/
def componentVariablesDupPass (component : ComponentE) :
    List VariableE → List String → (List String × List ErrorE)
  | [], names => (names, [])
  | v :: rest, names =>
    if v.name.length ≠ 0 then
      let e := if names.contains v.name then
          [⟨"Component '" ++ component.name ++ "' contains multiple variables with the name '"
             ++ v.name ++ "'. Valid variable names should be unique to their component.",
            .COMPONENT, .componentS component⟩]
        else []
      let (ns, es) := componentVariablesDupPass component rest (names ++ [v.name])
      (ns, e ++ es)
    else componentVariablesDupPass component rest names

/-- `Validator::validateComponent`. -/
def validateComponent (C : Collaborators) (component : ComponentE) : List ErrorE :=
  let nameErrs := if component.name.length = 0 then
      [⟨"Component does not have a valid name attribute.", .COMPONENT,
        .componentS component⟩]
    else []
  let unitsSection := if component.units.length > 0 then
      (componentUnitsDupPass component component.units []).2
        ++ (component.units.map
              (fun u => validateUnits C u
                (componentUnitsDupPass component component.units []).1)).flatten
    else []
  let variableNames := if component.vars.length > 0 then
      (componentVariablesDupPass component component.vars []).1
    else []
  let varSection := if component.vars.length > 0 then
      (componentVariablesDupPass component component.vars []).2
        ++ (component.vars.map (fun v => validateVariable v variableNames)).flatten
    else []
  let mathSection := if component.math.length ≠ 0 then
      validateMath C component.math component variableNames
    else []
  nameErrs ++ unitsSection ++ varSection ++ mathSection

/-- The per-component model-level bookkeeping of `validateModel` (lines
150-206 of the source): the import checks, the duplicate-import detection by
first-occurrence index equality, and the duplicate-component-name check;
returns the emitted errors and the updated (names, refs, sources) lists.
Everything is skipped when the component's name is empty. -/
def modelComponentEntry (model : ModelE) (c : ComponentE)
    (names refs sources : List String) :
    List ErrorE × List String × List String × List String :=
  if c.name.length = 0 then ([], names, refs, sources)
  else
    let (importErrs, refs2, sources2) :=
      if c.isImport then
        let componentRef := c.importReference
        let importSource := c.importSource
        let e1 := if componentRef.length = 0 then
            [⟨"Imported component '" ++ c.name
               ++ "' does not have a valid component_ref attribute.",
              .COMPONENT, .componentS c⟩]
          else []
        let e2 := if importSource.length = 0 then
            [⟨"Import of component '" ++ c.name
               ++ "' does not have a valid locator xlink:href attribute.",
              .IMPORT, .importS importSource⟩]
          else []
        let foundImportError := componentRef.length = 0 ∨ importSource.length = 0
        let e3 := if sources.length > 0 ∧ ¬foundImportError ∧
                     findIndexStd sources importSource = findIndexStd refs componentRef then
            [⟨"Model '" ++ model.name ++ "' contains multiple imported components from '"
               ++ importSource ++ "' with the same component_ref attribute '"
               ++ componentRef ++ "'.", .MODEL, .modelS model⟩]
          else []
        (e1 ++ e2 ++ e3, refs ++ [componentRef], sources ++ [importSource])
      else ([], refs, sources)
    let eDup := if names.contains c.name then
        [⟨"Model '" ++ model.name ++ "' contains multiple components with the name '"
           ++ c.name ++ "'. Valid component names should be unique to their model.",
          .MODEL, .modelS model⟩]
      else []
    (importErrs ++ eDup, names ++ [c.name], refs2, sources2)

/-- The per-units model-level bookkeeping of `validateModel` (lines 216-273
of the source), analogous to `modelComponentEntry`. -/
def modelUnitsEntry (model : ModelE) (u : UnitsE)
    (names refs sources : List String) :
    List ErrorE × List String × List String × List String :=
  if u.name.length = 0 then ([], names, refs, sources)
  else
    let (importErrs, refs2, sources2) :=
      if u.isImport then
        let unitsRef := u.importReference
        let importSource := u.importSource
        let e1 := if unitsRef.length = 0 then
            [⟨"Imported units '" ++ u.name ++ "' does not have a valid units_ref attribute.",
              .UNITS, .unitsS u⟩]
          else []
        let e2 := if importSource.length = 0 then
            [⟨"Import of units '" ++ u.name
               ++ "' does not have a valid locator xlink:href attribute.",
              .IMPORT, .importS importSource⟩]
          else []
        let foundImportError := unitsRef.length = 0 ∨ importSource.length = 0
        let e3 := if sources.length > 0 ∧ ¬foundImportError ∧
                     findIndexStd sources importSource = findIndexStd refs unitsRef then
            [⟨"Model '" ++ model.name ++ "' contains multiple imported units from '"
               ++ importSource ++ "' with the same units_ref attribute '"
               ++ unitsRef ++ "'.", .MODEL, .modelS model⟩]
          else []
        (e1 ++ e2 ++ e3, refs ++ [unitsRef], sources ++ [importSource])
      else ([], refs, sources)
    let eDup := if names.contains u.name then
        [⟨"Model '" ++ model.name ++ "' contains multiple units with the name '"
           ++ u.name ++ "'. Valid units names should be unique to their model.",
          .MODEL, .modelS model⟩]
      else []
    (importErrs ++ eDup, names ++ [u.name], refs2, sources2)

/-- The component loop of `validateModel` (lines 149-209 of the source):
each component's model-level bookkeeping followed by `validateComponent`. -/
def modelComponentsLoop (C : Collaborators) (model : ModelE) :
    List ComponentE → List String → List String → List String → List ErrorE
  | [], _, _, _ => []
  | c :: rest, names, refs, sources =>
    let (entryErrs, names2, refs2, sources2) := modelComponentEntry model c names refs sources
    entryErrs ++ validateComponent C c
      ++ modelComponentsLoop C model rest names2 refs2 sources2

/-- The first units loop of `validateModel` (lines 216-274 of the source):
returns the collected non-empty units names and the errors it emitted. -/
def modelUnitsPass1 (model : ModelE) :
    List UnitsE → List String → List String → List String → (List String × List ErrorE)
  | [], names, _, _ => (names, [])
  | u :: rest, names, refs, sources =>
    let (entryErrs, names2, refs2, sources2) := modelUnitsEntry model u names refs sources
    let (ns, es) := modelUnitsPass1 model rest names2 refs2 sources2
    (ns, entryErrs ++ es)

/-- The whole units block of `validateModel` (lines 212-280 of the source):
first the bookkeeping pass, then `validateUnits` on every units with the
collected name list. -/
def modelUnitsSection (C : Collaborators) (model : ModelE) : List ErrorE :=
  (modelUnitsPass1 model model.units [] [] []).2
    ++ (model.units.map
          (fun u => validateUnits C u (modelUnitsPass1 model model.units [] [] []).1)).flatten

/-- `Validator::validateModel`, after `clearErrors()`: the run's errors in
emission order. -/
def validateModel (C : Collaborators) (model : ModelE) : List ErrorE :=
  (if model.name.length = 0 then
     [⟨"Model does not have a valid name attribute.", .MODEL, .modelS model⟩]
   else [])
  ++ (if model.components.length > 0 then
        modelComponentsLoop C model model.components [] [] []
      else [])
  ++ (if model.units.length > 0 then modelUnitsSection C model else [])

/-- The consumer entry point on a reused validator instance: the Logger's
accumulated error list is the state, `validateModel` first runs
`clearErrors()` (line 135 of the source) and the pass then appends its
errors to the cleared list. -/
def validateModelTop (C : Collaborators) (_priorErrors : List ErrorE)
    (model : ModelE) : List ErrorE :=
  let cleared : List ErrorE := []
  cleared ++ validateModel C model

/-! ### Concrete instances used by counterexamples and witnesses -/

/-- Collaborators that report nothing: the Units entity validator returns no
strings, both parses yield an empty error list and no root, serialization is
empty.  Used on models whose components carry no math, where the parse
functions are never consulted. -/
def trivialCollaborators : Collaborators where
  uve := fun _ _ => []
  parse := fun _ => ⟨[], none⟩
  parseMathML := fun _ => ⟨[], none⟩
  serialize := fun _ => ""

/-- An imported component with no units, variables or math. -/
def importedComponent (n ref src : String) : ComponentE :=
  ⟨n, [], [], "", true, ref, src⟩

/-- Two imported components whose (href, ref) pairs are entirely fresh:
(`a`, `x`) then (`b`, `y`) — no href and no ref is ever repeated. -/
def freshPairModel : ModelE :=
  ⟨"m", [importedComponent "c1" "x" "a", importedComponent "c2" "y" "b"], []⟩

/-- A plain component with no units, variables or math, used by witnesses. -/
def plainComponent : ComponentE := ⟨"c", [], [], "", false, "", ""⟩

/-- Collaborators whose `parse` yields no XML errors and an `apply` root. -/
def applyRootCollaborators : Collaborators where
  uve := fun _ _ => []
  parse := fun _ => ⟨[], some (XmlNode.mk "apply" "" [] [])⟩
  parseMathML := fun _ => ⟨[], none⟩
  serialize := fun _ => ""

/-- A `ci` node whose only child is an element node, not a text node. -/
def elementChildCi : XmlNode := XmlNode.mk "ci" "" [] [XmlNode.mk "apply" "" [] []]

/-- The spec's invariant for a `ci`/`cn` leaf: it has a non-whitespace text
child (written from the spec's words). -/
def hasNonWsTextChild (n : XmlNode) : Bool :=
  n.children.any (fun c => c.type == "text" && isNotWhitespace c.text)

/-- A model holding only a units named `second`, used by the C4 witness. -/
def c4Model : ModelE := ⟨"m", [], [⟨"second", false, "", ""⟩]⟩

/-- The non-empty names of a Units list, in order: what the bookkeeping
passes collect into their name lists. -/
def nonEmptyUnitsNames (us : List UnitsE) : List String :=
  (us.map UnitsE.name).filter (fun n => !(n.length == 0))

/-- The non-empty names of a Variable list, in order. -/
def nonEmptyVariableNames (vs : List VariableE) : List String :=
  (vs.map VariableE.name).filter (fun n => !(n.length == 0))

/-- The DTD-validation tail of `validateMath`: serialize the cleaned root,
strip the cellml namespace declaration, hand the string to `parseMathML` and
attribute each reported error to the component with kind MATHML. -/
def mathDtdErrors (C : Collaborators) (component : ComponentE) (node : XmlNode)
    (variableNames : List String) : List ErrorE :=
  (C.parseMathML (removeSubstring
      (C.serialize (match (validateAndCleanMathCiCnNodes component variableNames
          (gatherMathBvarVariableNames [node] []) "" [node]).2 with
        | c :: _ => c
        | [] => node))
      " xmlns:cellml=\"http://www.cellml.org/cellml/2.0#\"")).xmlErrors.map
    (fun d => ⟨d, .MATHML, .componentS component⟩)

/-- Collaborators whose `parse` yields no XML errors and a `math` root. -/
def mathRootCollaborators : Collaborators where
  uve := fun _ _ => []
  parse := fun _ => ⟨[], some (XmlNode.mk "math" "" [] [])⟩
  parseMathML := fun _ => ⟨[], none⟩
  serialize := fun _ => ""

/-- The hypotheses of claim C2, written from the claim's words: no
Component, Units or Variable has an empty name, there are no duplicate
names at any scope, and no component carries a math string. -/
def claimC2Hypotheses (m : ModelE) : Prop :=
  (∀ c ∈ m.components, c.name ≠ "" ∧ (∀ u ∈ c.units, u.name ≠ "") ∧
    (∀ v ∈ c.vars, v.name ≠ "") ∧ c.math = "") ∧
  (∀ u ∈ m.units, u.name ≠ "") ∧
  (m.components.map ComponentE.name).Nodup ∧
  (m.units.map UnitsE.name).Nodup ∧
  (∀ c ∈ m.components, (c.units.map UnitsE.name).Nodup ∧
    (c.vars.map VariableE.name).Nodup)

/-- A variable passing every per-variable check: non-empty name and units,
an allowed interface value when one is present, and an initial value (when
present) that is a sibling variable name or an accepted double literal. -/
def cleanVariable (names : List String) (v : VariableE) : Prop :=
  v.name ≠ "" ∧ v.units ≠ "" ∧
  (v.interfaceType = "" ∨ v.interfaceType = "public" ∨ v.interfaceType = "private" ∨
   v.interfaceType = "none" ∨ v.interfaceType = "public_and_private") ∧
  (v.initialValue = "" ∨ names.contains v.initialValue = true ∨
   catchDoubleConversionError v.initialValue = false)

/-- A units passing every per-units check: not imported, with a name that is
neither empty nor a reserved standard unit name. -/
def cleanUnits (u : UnitsE) : Prop :=
  u.name ≠ "" ∧ u.isImport = false ∧ u.name ∉ standardUnitNames

/-- A component passing every check: not imported, no math, non-empty name,
duplicate-free clean units and variables. -/
def cleanComponent (c : ComponentE) : Prop :=
  c.name ≠ "" ∧ c.isImport = false ∧ c.math = "" ∧
  (c.units.map UnitsE.name).Nodup ∧ (∀ u ∈ c.units, cleanUnits u) ∧
  (c.vars.map VariableE.name).Nodup ∧
  (∀ v ∈ c.vars, cleanVariable (nonEmptyVariableNames c.vars) v)

/-- The amended hypotheses of C2 over the whole model. -/
def cleanModelH (m : ModelE) : Prop :=
  (m.components.map ComponentE.name).Nodup ∧ (∀ c ∈ m.components, cleanComponent c) ∧
  (m.units.map UnitsE.name).Nodup ∧ (∀ u ∈ m.units, cleanUnits u)

/-- A clean model with a component (one units, one variable with an
initial value) and a model-level units, for the C2 witness. -/
def c2WitnessModel : ModelE :=
  ⟨"m",
   [⟨"c", [⟨"u1", false, "", ""⟩], [⟨"x", "u1", "public", "1.0"⟩], "", false, "", ""⟩],
   [⟨"u2", false, "", ""⟩]⟩

/-! ### Claim theorems -/

/-- C1: In validateModel's duplicate-import detection the spec claims a
MODEL-kind duplicate error is emitted iff the exact (href, ref) pair was
appended as one prior pair, and in particular never when href and ref are
each fresh.  The code instead compares first-occurrence indices where a
missing value indexes as the list length: with the prior pair (`a`, `x`)
recorded and the entirely fresh pair (`b`, `y`) being processed, both
`std::find`s miss, both indices equal 1, and the spurious MODEL duplicate
error below is emitted — contradicting the comment above the check
("Check if we already have another import from the same source with the
same component_ref").  This theorem evaluates the embedded code at that
failing input. -/
theorem c1_fresh_pair_spurious_duplicate :
    validateModel trivialCollaborators freshPairModel =
      [⟨"Model 'm' contains multiple imported components from 'b' with the same component_ref attribute 'y'.",
        .MODEL, .modelS freshPairModel⟩] := by
  decide

/-- C6: running validateModel twice back-to-back on the same validator
instance yields identical error lists, because the entry point clears the
accumulated errors before the pass: the second run, whose prior state is the
first run's output, returns exactly the first run's output (it returns the
same list whatever the prior state is). -/
theorem c6_two_runs_identical (C : Collaborators) (prior : List ErrorE) (m : ModelE) :
    validateModelTop C (validateModelTop C prior m) m = validateModelTop C prior m := rfl

/-- C10: an imported Component or Units whose name is empty is skipped by
every model-level import check: the bookkeeping step emits no error at all
for it (no ref error, no xlink:href error, no duplicate-import error) and
leaves the parallel seen-name/seen-ref/seen-source lists untouched, so the
pair takes no part in later duplicate detection. -/
theorem c10_empty_name_skips_import_checks (m : ModelE) (c : ComponentE) (u : UnitsE)
    (names refs sources : List String) (hc : c.name = "") (hu : u.name = "") :
    modelComponentEntry m c names refs sources = ([], names, refs, sources) ∧
    modelUnitsEntry m u names refs sources = ([], names, refs, sources) := by
  constructor <;> simp [modelComponentEntry, modelUnitsEntry, hc, hu]

/-- Witness for C10 at a concrete nameless imported component and units. -/
theorem c10_witness :
    (⟨"", [], [], "", true, "r", "s"⟩ : ComponentE).name = "" ∧
    (⟨"", true, "r", "s"⟩ : UnitsE).name = "" ∧
    (modelComponentEntry freshPairModel ⟨"", [], [], "", true, "r", "s"⟩ ["n"] ["r0"] ["s0"]
       = ([], ["n"], ["r0"], ["s0"]) ∧
     modelUnitsEntry freshPairModel ⟨"", true, "r", "s"⟩ ["n"] ["r0"] ["s0"]
       = ([], ["n"], ["r0"], ["s0"])) :=
  ⟨rfl, rfl, c10_empty_name_skips_import_checks freshPairModel _ _ ["n"] ["r0"] ["s0"] rfl rfl⟩

/-! ### Helper lemmas for the double-literal predicate (C3) -/

/-- A decimal digit is not one of the six white-space characters. -/
lemma isSpaceC_eq_false_of_isDigit {c : Char} (h : c.isDigit = true) :
    isSpaceC c = false := by
  by_cases h1 : c = ' '
  · subst h1; exact absurd h (by decide)
  by_cases h2 : c = '\t'
  · subst h2; exact absurd h (by decide)
  by_cases h3 : c = '\n'
  · subst h3; exact absurd h (by decide)
  by_cases h4 : c = Char.ofNat 11
  · subst h4; exact absurd h (by decide)
  by_cases h5 : c = Char.ofNat 12
  · subst h5; exact absurd h (by decide)
  by_cases h6 : c = '\r'
  · subst h6; exact absurd h (by decide)
  simp [isSpaceC, h1, h2, h3, h4, h5, h6]

/-- A list whose digit-prefix is non-empty starts with a digit. -/
lemma head_digit_of_takeWhile {l : List Char}
    (h : (l.takeWhile Char.isDigit).isEmpty = false) :
    ∃ d r, l = d :: r ∧ d.isDigit = true := by
  cases l with
  | nil => simp at h
  | cons d r =>
    by_cases hd : d.isDigit
    · exact ⟨d, r, rfl, hd⟩
    · simp [List.takeWhile_cons, hd] at h

/-- A spec-valid literal begins, after its optional sign, with a digit. -/
lemma specLexicalDouble_head {s : String} (h : specLexicalDouble s = true) :
    ∃ d r, afterSign s.data = d :: r ∧ d.isDigit = true := by
  have h1 : ((afterSign s.data).takeWhile Char.isDigit).isEmpty = false := by
    by_contra hc
    rw [Bool.not_eq_false] at hc
    unfold specLexicalDouble at h
    rw [hc] at h
    simp at h
  exact head_digit_of_takeWhile h1

/-- `decimalAccept` holds of any list with a digit at its head. -/
lemma decimalAccept_head {d : Char} {r : List Char} (hd : d.isDigit = true) :
    decimalAccept (d :: r) = true := by
  simp [decimalAccept, hd]

/-- A spec-valid literal is accepted by the `strtod` model. -/
lemma stodAccepts_of_spec {s : String} (h : specLexicalDouble s = true) :
    stodAccepts s = true := by
  obtain ⟨d, r, ha, hd⟩ := specLexicalDouble_head h
  cases hl : s.data with
  | nil => rw [hl] at ha; simp [afterSign] at ha
  | cons c0 t =>
    rw [hl] at ha
    have hsp : isSpaceC c0 = false := by
      by_cases hp : c0 = '+'
      · subst hp; decide
      by_cases hm : c0 = '-'
      · subst hm; decide
      have heq : afterSign (c0 :: t) = c0 :: t := by simp [afterSign, hp, hm]
      rw [heq] at ha
      injection ha with h1 _
      subst h1
      exact isSpaceC_eq_false_of_isDigit hd
    have hdrop : s.data.dropWhile isSpaceC = c0 :: t := by
      rw [hl, List.dropWhile_cons, hsp]
      simp
    unfold stodAccepts
    rw [hdrop, ha]
    simp [decimalAccept_head hd]

/-- A spec-valid literal surrounded by one space on each side is still
accepted by the `strtod` model: the leading space is skipped and the
trailing space is trailing content past the converted prefix. -/
lemma stodAccepts_of_spec_wrapped {s : String} (h : specLexicalDouble s = true) :
    stodAccepts (" " ++ s ++ " ") = true := by
  obtain ⟨d, r, ha, hd⟩ := specLexicalDouble_head h
  cases hl : s.data with
  | nil => rw [hl] at ha; simp [afterSign] at ha
  | cons c0 t =>
    rw [hl] at ha
    have hsp : isSpaceC c0 = false := by
      by_cases hp : c0 = '+'
      · subst hp; decide
      by_cases hm : c0 = '-'
      · subst hm; decide
      have heq : afterSign (c0 :: t) = c0 :: t := by simp [afterSign, hp, hm]
      rw [heq] at ha
      injection ha with h1 _
      subst h1
      exact isSpaceC_eq_false_of_isDigit hd
    have hdrop : (" " ++ s ++ " ").data.dropWhile isSpaceC = c0 :: (t ++ [' ']) := by
      have hdata : (" " ++ s ++ " ").data = ' ' :: (c0 :: (t ++ [' '])) := by
        simp [String.data_append, hl]
      rw [hdata, List.dropWhile_cons]
      simp only [show isSpaceC ' ' = true from by decide, if_true]
      rw [List.dropWhile_cons, hsp]
      simp
    have hafter : ∃ t', afterSign (c0 :: (t ++ [' '])) = d :: t' := by
      by_cases hp : c0 = '+'
      · have h1 : afterSign (c0 :: t) = t := by subst hp; simp [afterSign]
        rw [h1] at ha
        subst ha
        exact ⟨r ++ [' '], by subst hp; simp [afterSign]⟩
      by_cases hm : c0 = '-'
      · have h1 : afterSign (c0 :: t) = t := by subst hm; simp [afterSign]
        rw [h1] at ha
        subst ha
        exact ⟨r ++ [' '], by subst hm; simp [afterSign]⟩
      · have h1 : afterSign (c0 :: t) = c0 :: t := by simp [afterSign, hp, hm]
        rw [h1] at ha
        injection ha with h2 _
        subst h2
        exact ⟨t ++ [' '], by simp [afterSign, hp, hm]⟩
    obtain ⟨t', ht'⟩ := hafter
    unfold stodAccepts
    rw [hdrop, ht']
    simp [decimalAccept_head hd]

/-- C3 counterexample: the claim says the predicate does not trim whitespace
and reports a whitespace-wrapped valid literal as invalid (returns true).
In the code, `std::stod` skips leading whitespace and ignores trailing
characters: on the strings below, which fail the spec's lexical rule because
of the surrounding space, the predicate nevertheless returns false (OK). -/
theorem c3_counterexample :
    specLexicalDouble " 1.5" = false ∧ catchDoubleConversionError " 1.5" = false ∧
    specLexicalDouble "1.5 " = false ∧ catchDoubleConversionError "1.5 " = false := by
  decide

/-- C3 amended: `catchDoubleConversionError` returns false (OK) exactly when
`std::stod` converts, which accepts any string whose prefix — after skipped
leading whitespace and an optional sign — forms a valid literal, ignoring
what follows; in particular every string matching the spec's lexical rule is
accepted, and so is that string wrapped in leading and trailing whitespace
(range overflow aside, which the model omits). -/
theorem c3_amended (s : String) (h : specLexicalDouble s = true) :
    catchDoubleConversionError s = false ∧
    catchDoubleConversionError (" " ++ s ++ " ") = false := by
  unfold catchDoubleConversionError
  rw [stodAccepts_of_spec h, stodAccepts_of_spec_wrapped h]
  exact ⟨rfl, rfl⟩

/-- Witness for C3's amended theorem at the literal `1.5`. -/
theorem c3_amended_witness :
    specLexicalDouble "1.5" = true ∧
    (catchDoubleConversionError "1.5" = false ∧
     catchDoubleConversionError (" " ++ "1.5" ++ " ") = false) :=
  ⟨by decide, c3_amended "1.5" (by decide)⟩

/-- C5: for math that parses as XML without parse errors, an absent root
node, or a root node whose type is not `math`, makes `validateMath` emit
exactly one XML-kind error for that math — no MATHML errors — and stop all
further math processing (the returned list is that singleton). -/
theorem c5_bad_root_single_xml_error (C : Collaborators) (input : String)
    (component : ComponentE) (variableNames : List String)
    (h : (C.parse input).xmlErrors = []) :
    ((C.parse input).root = none →
      validateMath C input component variableNames =
        [⟨"Could not get a valid XML root node from the math on component '"
            ++ component.name ++ "'.", .XML, .componentS component⟩]) ∧
    (∀ node, (C.parse input).root = some node → node.type ≠ "math" →
      validateMath C input component variableNames =
        [⟨"Math root node is of invalid type '" ++ node.type ++ "' on component '"
            ++ component.name ++ "'. A valid math root node should be of type 'math'.",
          .XML, .componentS component⟩]) := by
  constructor
  · intro hr
    simp only [validateMath, h, hr, List.map_nil, List.nil_append]
  · intro node hr hne
    have hb : (node.type == "math") = false := by
      simp only [beq_eq_false_iff_ne, ne_eq]
      exact hne
    simp only [validateMath, h, hr, hb, List.map_nil, List.nil_append,
      Bool.not_false, if_true]

/-- Witness for C5 at a concrete parse with a mistyped `apply` root. -/
theorem c5_witness :
    (applyRootCollaborators.parse "m").xmlErrors = [] ∧
    validateMath applyRootCollaborators "m" plainComponent [] =
      [⟨"Math root node is of invalid type 'apply' on component 'c'. A valid math root node should be of type 'math'.",
        .XML, .componentS plainComponent⟩] :=
  ⟨rfl, (c5_bad_root_single_xml_error applyRootCollaborators "m" plainComponent [] rfl).2
    (XmlNode.mk "apply" "" [] []) rfl (by decide)⟩

/-- C8 counterexample: the claim says every ci/cn leaf violating the
non-whitespace-text-child invariant is reported.  A `ci` whose first child
exists but is an element node (not a text node) violates the invariant, yet
the walker emits no error at all for it: the code only reports "has no
child" when there is no child, and "whitespace-only" when the first child is
a text node. -/
theorem c8_counterexample :
    hasNonWsTextChild elementChildCi = false ∧
    (validateAndCleanMathCiCnNodes plainComponent [] [] "math" [elementChildCi]).1 = [] := by
  constructor
  · decide
  · show (validateAndCleanMathCiCnNodes plainComponent [] [] "math"
      [XmlNode.mk "ci" "" [] [XmlNode.mk "apply" "" [] []]]).1 = []
    simp [validateAndCleanMathCiCnNodes, ciCnChildErrors, ciCnAttrScan,
      ciCnUnitsErrors, ciCnTextNode, XmlNode.type, XmlNode.text]

/-- C8 amended: a ci/cn with no child at all is reported with the specific
"has no child" MATHML error, and one whose first child is a text node with
whitespace-only content is reported with the distinct "whitespace-only
child element" MATHML error; a ci/cn whose first child exists but is not a
text node is not reported. -/
theorem c8_amended (component : ComponentE) (variableNames bvarNames : List String)
    (parentType : String) (n : XmlNode) (rest : List XmlNode)
    (ht : n.type = "ci" ∨ n.type = "cn") :
    (n.children = [] →
      (⟨"MathML " ++ n.type ++ " element has no child.", .MATHML,
         .componentS component⟩ : ErrorE)
        ∈ (validateAndCleanMathCiCnNodes component variableNames bvarNames parentType
            (n :: rest)).1) ∧
    (∀ c cs, n.children = c :: cs → c.type = "text" → isNotWhitespace c.text = false →
      (⟨"MathML " ++ n.type ++ " element has a whitespace-only child element.", .MATHML,
         .componentS component⟩ : ErrorE)
        ∈ (validateAndCleanMathCiCnNodes component variableNames bvarNames parentType
            (n :: rest)).1) := by
  obtain ⟨t, txt, attrs, children⟩ := n
  have htb : (t == "ci" || t == "cn") = true := by
    rcases ht with h | h <;> simp [XmlNode.type] at h <;> simp [h]
  constructor
  · intro hc
    simp only [XmlNode.children] at hc
    subst hc
    simp only [validateAndCleanMathCiCnNodes, htb, if_true, XmlNode.type]
    exact List.mem_append_left _ (List.mem_append_left _ (List.mem_append_left _
      (by simp [ciCnChildErrors])))
  · intro c cs hc hctext hcws
    simp only [XmlNode.children] at hc
    subst hc
    simp only [validateAndCleanMathCiCnNodes, htb, if_true, XmlNode.type]
    exact List.mem_append_left _ (List.mem_append_left _ (List.mem_append_left _
      (by simp [ciCnChildErrors, hctext, hcws])))

/-- Witness for C8's amended theorem: a childless `cn` gets the "has no
child" error and a `ci` with a whitespace-only text child gets the
"whitespace-only child element" error. -/
theorem c8_amended_witness :
    ((⟨"MathML cn element has no child.", .MATHML, .componentS plainComponent⟩ : ErrorE)
      ∈ (validateAndCleanMathCiCnNodes plainComponent [] [] "math"
          [XmlNode.mk "cn" "" [] []]).1) ∧
    ((⟨"MathML ci element has a whitespace-only child element.", .MATHML,
        .componentS plainComponent⟩ : ErrorE)
      ∈ (validateAndCleanMathCiCnNodes plainComponent [] [] "math"
          [XmlNode.mk "ci" "" [] [XmlNode.mk "text" " " [] []]]).1) :=
  ⟨(c8_amended plainComponent [] [] "math" (XmlNode.mk "cn" "" [] []) []
      (Or.inr rfl)).1 rfl,
   (c8_amended plainComponent [] [] "math"
      (XmlNode.mk "ci" "" [] [XmlNode.mk "text" " " [] []]) []
      (Or.inl rfl)).2 (XmlNode.mk "text" " " [] []) [] rfl rfl (by decide)⟩

/-! ### Helper lemmas for the standard-unit-name claim (C4) -/

/-- Every one of the 34 standard unit names is non-empty. -/
lemma standardUnitNames_nonempty : ∀ n ∈ standardUnitNames, n.length ≠ 0 := by decide

/-- `validateUnits` on a standard-named units emits the protected-name
error, of kind UNITS, with that units as the subject. -/
lemma validateUnits_std_mem (C : Collaborators) (u : UnitsE) (ns : List String)
    (h : u.name ∈ standardUnitNames) :
    ∃ e ∈ validateUnits C u ns, e.kind = .UNITS ∧ e.subject = .unitsS u := by
  refine ⟨⟨"Units is named '" ++ u.name ++ "', which is a protected standard unit name.",
           .UNITS, .unitsS u⟩, ?_, rfl, rfl⟩
  unfold validateUnits
  have h1 : ¬ u.name.length = 0 := standardUnitNames_nonempty _ h
  have h2 : standardUnitNames.contains u.name = true := by simpa using h
  rw [if_neg h1, if_pos h2]
  exact List.mem_append_left _ (List.mem_singleton.mpr rfl)

/-- An error of `validateUnits`, run with the pass-1 name list, on a units
of the model's list appears in the model units section. -/
lemma mem_modelUnitsSection (C : Collaborators) (m : ModelE) (u : UnitsE)
    (hu : u ∈ m.units) (e : ErrorE)
    (he : e ∈ validateUnits C u (modelUnitsPass1 m m.units [] [] []).1) :
    e ∈ modelUnitsSection C m := by
  unfold modelUnitsSection
  exact List.mem_append_right _
    (List.mem_flatten.mpr ⟨_, List.mem_map_of_mem _ hu, he⟩)

/-- An error of `validateUnits`, run with the component's collected units
names, on a units of the component's list appears in `validateComponent`. -/
lemma mem_validateComponent_units (C : Collaborators) (c : ComponentE) (u : UnitsE)
    (hu : u ∈ c.units) (e : ErrorE)
    (he : e ∈ validateUnits C u (componentUnitsDupPass c c.units []).1) :
    e ∈ validateComponent C c := by
  have hlen : 0 < c.units.length := List.length_pos.mpr (List.ne_nil_of_mem hu)
  have hmem : e ∈ (c.units.map
      (fun u => validateUnits C u (componentUnitsDupPass c c.units []).1)).flatten :=
    List.mem_flatten.mpr ⟨_, List.mem_map_of_mem _ hu, he⟩
  simp only [validateComponent, hlen, if_true, gt_iff_lt, List.mem_append]
  tauto

/-- An error of `validateComponent` on a member component appears in the
model components loop, whatever the bookkeeping state. -/
lemma mem_modelComponentsLoop (C : Collaborators) (m : ModelE) (c : ComponentE)
    (e : ErrorE) (he : e ∈ validateComponent C c) :
    ∀ (cs : List ComponentE) (names refs sources : List String), c ∈ cs →
      e ∈ modelComponentsLoop C m cs names refs sources := by
  intro cs
  induction cs with
  | nil => intro _ _ _ h; cases h
  | cons c0 rest ih =>
    intro names refs sources hmem
    rcases hE : modelComponentEntry m c0 names refs sources with ⟨errs, ns2, rs2, ss2⟩
    rcases List.mem_cons.mp hmem with h | h
    · subst h
      simp only [modelComponentsLoop, hE, List.mem_append]
      tauto
    · have := ih ns2 rs2 ss2 h
      simp only [modelComponentsLoop, hE, List.mem_append]
      tauto

/-- C4: every Units held in the Model's units list or in some Component's
units list whose name is one of the 34 reserved standard unit names receives
at least one UNITS-kind error whose subject is that Units. -/
theorem c4_standard_unit_name_reported (C : Collaborators) (m : ModelE) (u : UnitsE)
    (hloc : u ∈ m.units ∨ ∃ c ∈ m.components, u ∈ c.units)
    (hstd : u.name ∈ standardUnitNames) :
    ∃ e ∈ validateModel C m, e.kind = .UNITS ∧ e.subject = .unitsS u := by
  rcases hloc with hu | ⟨c, hc, hu⟩
  · obtain ⟨e, he, hk, hs⟩ :=
      validateUnits_std_mem C u (modelUnitsPass1 m m.units [] [] []).1 hstd
    refine ⟨e, ?_, hk, hs⟩
    have hlen : 0 < m.units.length := List.length_pos.mpr (List.ne_nil_of_mem hu)
    have hmem := mem_modelUnitsSection C m u hu e he
    simp only [validateModel, hlen, if_true, gt_iff_lt, List.mem_append]
    tauto
  · obtain ⟨e, he, hk, hs⟩ :=
      validateUnits_std_mem C u (componentUnitsDupPass c c.units []).1 hstd
    refine ⟨e, ?_, hk, hs⟩
    have hlen : 0 < m.components.length := List.length_pos.mpr (List.ne_nil_of_mem hc)
    have hmem := mem_modelComponentsLoop C m c e
      (mem_validateComponent_units C c u hu e he) m.components [] [] [] hc
    simp only [validateModel, hlen, if_true, gt_iff_lt, List.mem_append]
    tauto

/-- Witness for C4 at a model-level units named `second`. -/
theorem c4_witness :
    ((⟨"second", false, "", ""⟩ : UnitsE) ∈ c4Model.units ∨
      ∃ c ∈ c4Model.components, (⟨"second", false, "", ""⟩ : UnitsE) ∈ c.units) ∧
    "second" ∈ standardUnitNames ∧
    ∃ e ∈ validateModel trivialCollaborators c4Model,
      e.kind = .UNITS ∧ e.subject = .unitsS ⟨"second", false, "", ""⟩ :=
  ⟨Or.inl (by decide), by decide,
   c4_standard_unit_name_reported trivialCollaborators c4Model ⟨"second", false, "", ""⟩
     (Or.inl (by decide)) (by decide)⟩

/-! ### Helper definitions and lemmas for the error-ordering claim (C7) -/

/-- The component units duplicate pass collects exactly the non-empty names,
appended to the prior list. -/
lemma componentUnitsDupPass_names (c : ComponentE) :
    ∀ (us : List UnitsE) (prior : List String),
      (componentUnitsDupPass c us prior).1 = prior ++ nonEmptyUnitsNames us := by
  intro us
  induction us with
  | nil => intro prior; simp [componentUnitsDupPass, nonEmptyUnitsNames]
  | cons u rest ih =>
    intro prior
    by_cases h : u.name.length = 0
    · have hfilter : nonEmptyUnitsNames (u :: rest) = nonEmptyUnitsNames rest := by
        simp [nonEmptyUnitsNames, List.filter_cons, h]
      simp only [componentUnitsDupPass, if_neg (not_not_intro h), hfilter]
      exact ih prior
    · have hfilter : nonEmptyUnitsNames (u :: rest) = u.name :: nonEmptyUnitsNames rest := by
        simp [nonEmptyUnitsNames, List.filter_cons, h]
      rcases hP : componentUnitsDupPass c rest (prior ++ [u.name]) with ⟨ns, es⟩
      have hns : ns = (prior ++ [u.name]) ++ nonEmptyUnitsNames rest := by
        have h2 := ih (prior ++ [u.name])
        rw [hP] at h2
        exact h2
      simp only [componentUnitsDupPass, if_pos h, hP, hfilter]
      simp [hns, List.append_assoc]

/-- The component variables duplicate pass collects exactly the non-empty
names, appended to the prior list. -/
lemma componentVariablesDupPass_names (c : ComponentE) :
    ∀ (vs : List VariableE) (prior : List String),
      (componentVariablesDupPass c vs prior).1 = prior ++ nonEmptyVariableNames vs := by
  intro vs
  induction vs with
  | nil => intro prior; simp [componentVariablesDupPass, nonEmptyVariableNames]
  | cons v rest ih =>
    intro prior
    by_cases h : v.name.length = 0
    · have hfilter : nonEmptyVariableNames (v :: rest) = nonEmptyVariableNames rest := by
        simp [nonEmptyVariableNames, List.filter_cons, h]
      simp only [componentVariablesDupPass, if_neg (not_not_intro h), hfilter]
      exact ih prior
    · have hfilter : nonEmptyVariableNames (v :: rest) =
          v.name :: nonEmptyVariableNames rest := by
        simp [nonEmptyVariableNames, List.filter_cons, h]
      rcases hP : componentVariablesDupPass c rest (prior ++ [v.name]) with ⟨ns, es⟩
      have hns : ns = (prior ++ [v.name]) ++ nonEmptyVariableNames rest := by
        have h2 := ih (prior ++ [v.name])
        rw [hP] at h2
        exact h2
      simp only [componentVariablesDupPass, if_pos h, hP, hfilter]
      simp [hns, List.append_assoc]

/-- The name-list output of the per-units model bookkeeping step. -/
lemma modelUnitsEntry_names (m : ModelE) (u : UnitsE) (names refs sources : List String) :
    (modelUnitsEntry m u names refs sources).2.1 =
      if u.name.length = 0 then names else names ++ [u.name] := by
  unfold modelUnitsEntry
  by_cases h : u.name.length = 0
  · rw [if_pos h, if_pos h]
  · rw [if_neg h, if_neg h]

/-- The model units pass 1 collects exactly the non-empty names, appended to
the prior list, whatever the refs and sources state. -/
lemma modelUnitsPass1_names (m : ModelE) :
    ∀ (us : List UnitsE) (names refs sources : List String),
      (modelUnitsPass1 m us names refs sources).1 = names ++ nonEmptyUnitsNames us := by
  intro us
  induction us with
  | nil => intro names refs sources; simp [modelUnitsPass1, nonEmptyUnitsNames]
  | cons u rest ih =>
    intro names refs sources
    rcases hE : modelUnitsEntry m u names refs sources with ⟨errs, ns2, rs2, ss2⟩
    have hn : ns2 = if u.name.length = 0 then names else names ++ [u.name] := by
      have h2 := modelUnitsEntry_names m u names refs sources
      rw [hE] at h2
      exact h2
    rcases hP : modelUnitsPass1 m rest ns2 rs2 ss2 with ⟨ns, es⟩
    have hns : ns = ns2 ++ nonEmptyUnitsNames rest := by
      have h2 := ih ns2 rs2 ss2
      rw [hP] at h2
      exact h2
    simp only [modelUnitsPass1, hE, hP]
    by_cases h : u.name.length = 0
    · have hfilter : nonEmptyUnitsNames (u :: rest) = nonEmptyUnitsNames rest := by
        simp [nonEmptyUnitsNames, List.filter_cons, h]
      rw [if_pos h] at hn
      simp [hns, hn, hfilter]
    · have hfilter : nonEmptyUnitsNames (u :: rest) = u.name :: nonEmptyUnitsNames rest := by
        simp [nonEmptyUnitsNames, List.filter_cons, h]
      rw [if_neg h] at hn
      simp [hns, hn, hfilter, List.append_assoc]

/-- The collected variable-name list of `validateComponent` (empty when the
component has no variables) is the non-empty variable names. -/
lemma collectedVariableNames_eq (c : ComponentE) :
    (if c.vars.length > 0 then (componentVariablesDupPass c c.vars []).1 else []) =
      nonEmptyVariableNames c.vars := by
  by_cases h : c.vars.length > 0
  · rw [if_pos h, componentVariablesDupPass_names]
    simp
  · rw [if_neg h]
    have : c.vars = [] := List.length_eq_zero.mp (Nat.eq_zero_of_not_pos h)
    simp [this, nonEmptyVariableNames]

/-- C7: errors are appended in depth-first discovery order.  In the model's
units block all bookkeeping-pass errors (duplicate names and imports) come
before every per-units structural error, a two-pass scheme; within a
component, the name error precedes units-duplicate errors, which precede
units validation errors, which precede variable errors (duplicates then
per-variable), which precede math errors; within math carrying a `math`
root, XML parse errors precede bound-variable-vs-variable collision errors,
which precede per-leaf ci/cn errors, which precede DTD errors. -/
theorem c7_error_order (C : Collaborators) (m : ModelE) (c : ComponentE)
    (input : String) (component : ComponentE) (variableNames : List String) :
    (modelUnitsSection C m =
      (modelUnitsPass1 m m.units [] [] []).2
        ++ (m.units.map (fun u => validateUnits C u (nonEmptyUnitsNames m.units))).flatten) ∧
    (validateComponent C c =
      (if c.name.length = 0 then
        [⟨"Component does not have a valid name attribute.", .COMPONENT, .componentS c⟩]
       else [])
      ++ (if c.units.length > 0 then
            (componentUnitsDupPass c c.units []).2
              ++ (c.units.map (fun u => validateUnits C u (nonEmptyUnitsNames c.units))).flatten
          else [])
      ++ (if c.vars.length > 0 then
            (componentVariablesDupPass c c.vars []).2
              ++ (c.vars.map (fun v => validateVariable v (nonEmptyVariableNames c.vars))).flatten
          else [])
      ++ (if c.math.length ≠ 0 then
            validateMath C c.math c (nonEmptyVariableNames c.vars)
          else [])) ∧
    (∀ node, (C.parse input).root = some node → node.type = "math" →
      validateMath C input component variableNames =
        ((C.parse input).xmlErrors.map (fun d => (⟨d, .XML, .noSubject⟩ : ErrorE)))
          ++ ((variableNames.filter
                (fun vn => (gatherMathBvarVariableNames [node] []).contains vn)).map
              (fun vn => (⟨"Math in component '" ++ component.name ++ "' contains '" ++ vn
                            ++ "' as a bvar ci element but it is already a variable name.",
                          .MATHML, .componentS component⟩ : ErrorE)))
          ++ (validateAndCleanMathCiCnNodes component variableNames
                (gatherMathBvarVariableNames [node] []) "" [node]).1
          ++ mathDtdErrors C component node variableNames) := by
  refine ⟨?_, ?_, ?_⟩
  · unfold modelUnitsSection
    simp only [modelUnitsPass1_names, List.nil_append]
  · have hunames : (componentUnitsDupPass c c.units []).1 = nonEmptyUnitsNames c.units := by
      rw [componentUnitsDupPass_names]
      simp
    simp only [validateComponent, hunames, collectedVariableNames_eq]
  · intro node hr htype
    have hb : (node.type == "math") = true := by simp [htype]
    simp only [validateMath, hr, hb, Bool.not_true, Bool.false_eq_true, if_false,
      mathDtdErrors]

/-- Witness for C7, discharging the math-part hypotheses at a concrete
parse whose root is a `math` node. -/
theorem c7_witness :
    validateMath mathRootCollaborators "x" plainComponent ["t"] =
      ((mathRootCollaborators.parse "x").xmlErrors.map
          (fun d => (⟨d, .XML, .noSubject⟩ : ErrorE)))
        ++ ((["t"].filter
              (fun vn => (gatherMathBvarVariableNames [XmlNode.mk "math" "" [] []] []).contains vn)).map
            (fun vn => (⟨"Math in component '" ++ plainComponent.name ++ "' contains '" ++ vn
                          ++ "' as a bvar ci element but it is already a variable name.",
                        .MATHML, .componentS plainComponent⟩ : ErrorE)))
        ++ (validateAndCleanMathCiCnNodes plainComponent ["t"]
              (gatherMathBvarVariableNames [XmlNode.mk "math" "" [] []] []) ""
              [XmlNode.mk "math" "" [] []]).1
        ++ mathDtdErrors mathRootCollaborators plainComponent
            (XmlNode.mk "math" "" [] []) ["t"] :=
  (c7_error_order mathRootCollaborators c4Model plainComponent "x" plainComponent ["t"]).2.2
    (XmlNode.mk "math" "" [] []) rfl rfl

/-! ### Helper definitions and lemmas for the clean-model claim (C2) -/

/-- A string's length is zero exactly when it is empty. -/
lemma string_length_eq_zero_iff (s : String) : s.length = 0 ↔ s = "" := by
  rw [← String.length_data, List.length_eq_zero]
  constructor
  · intro h; cases s; simp_all
  · intro h; subst h; rfl

/-- Mapping a pointwise-empty function and flattening yields the empty
list. -/
lemma flatten_map_nil {α β : Type} (f : α → List β) :
    ∀ (l : List α), (∀ a ∈ l, f a = []) → (l.map f).flatten = [] := by
  intro l
  induction l with
  | nil => intro _; rfl
  | cons a rest ih =>
    intro h
    simp [h a (by simp), ih (fun x hx => h x (by simp [hx]))]

/-- C2 counterexample: the model named `m` holding a single units named
`second` satisfies all of the claim's hypotheses and has a non-empty model
name, yet validateModel emits the protected-standard-unit-name error, so
the error sink is not empty and the claimed equivalence fails. -/
theorem c2_counterexample :
    claimC2Hypotheses c4Model ∧ c4Model.name ≠ "" ∧
    validateModel trivialCollaborators c4Model ≠ [] := by
  refine ⟨?_, by decide, by decide⟩
  unfold claimC2Hypotheses
  decide

/-- A clean variable produces no errors. -/
lemma validateVariable_clean {names : List String} {v : VariableE}
    (h : cleanVariable names v) : validateVariable v names = [] := by
  obtain ⟨h1, h2, h3, h4⟩ := h
  have hn : ¬ v.name.length = 0 := fun hc => h1 ((string_length_eq_zero_iff _).mp hc)
  have hu : ¬ v.units.length = 0 := fun hc => h2 ((string_length_eq_zero_iff _).mp hc)
  have h4' : v.initialValue.length = 0 ∨ v.initialValue ∈ names ∨
      catchDoubleConversionError v.initialValue = false := by
    rcases h4 with h4 | h4 | h4
    · exact Or.inl (by simp [h4])
    · exact Or.inr (Or.inl (by simpa using h4))
    · exact Or.inr (Or.inr h4)
  rcases h3 with h3 | h3 | h3 | h3 | h3 <;> rcases h4' with h4' | h4' | h4' <;>
    simp [validateVariable, hn, hu, h3, h4']

/-- A clean units produces no errors when the collaborator validator is
silent. -/
lemma validateUnits_clean {C : Collaborators} {u : UnitsE} {ns : List String}
    (hU : ∀ u' ns', C.uve u' ns' = []) (h : cleanUnits u) :
    validateUnits C u ns = [] := by
  obtain ⟨h1, _, h3⟩ := h
  have hn : ¬ u.name.length = 0 := fun hc => h1 ((string_length_eq_zero_iff _).mp hc)
  simp [validateUnits, hn, h3, hU]

/-- With non-empty, duplicate-free names the component units duplicate pass
emits no errors. -/
lemma componentUnitsDupPass_clean (c : ComponentE) :
    ∀ (us : List UnitsE) (prior : List String),
      (∀ u ∈ us, u.name ≠ "") →
      (prior ++ us.map UnitsE.name).Nodup →
      (componentUnitsDupPass c us prior).2 = [] := by
  intro us
  induction us with
  | nil => intro prior _ _; simp [componentUnitsDupPass]
  | cons u rest ih =>
    intro prior hne hnd
    have h : ¬ u.name.length = 0 :=
      fun hc => (hne u (by simp)) ((string_length_eq_zero_iff _).mp hc)
    have hnotmem : u.name ∉ prior := by
      intro hmem
      exact List.disjoint_of_nodup_append (by simpa using hnd) hmem (by simp)
    have hcont : prior.contains u.name = false := by simpa using hnotmem
    rcases hP : componentUnitsDupPass c rest (prior ++ [u.name]) with ⟨ns, es⟩
    have hes : es = [] := by
      have h2 := ih (prior ++ [u.name]) (fun u' hu' => hne u' (by simp [hu']))
        (by rw [List.append_assoc]; simpa using hnd)
      rw [hP] at h2
      exact h2
    simp only [componentUnitsDupPass, if_pos h, hP, hcont]
    simp [hes]

/-- With non-empty, duplicate-free names the component variables duplicate
pass emits no errors. -/
lemma componentVariablesDupPass_clean (c : ComponentE) :
    ∀ (vs : List VariableE) (prior : List String),
      (∀ v ∈ vs, v.name ≠ "") →
      (prior ++ vs.map VariableE.name).Nodup →
      (componentVariablesDupPass c vs prior).2 = [] := by
  intro vs
  induction vs with
  | nil => intro prior _ _; simp [componentVariablesDupPass]
  | cons v rest ih =>
    intro prior hne hnd
    have h : ¬ v.name.length = 0 :=
      fun hc => (hne v (by simp)) ((string_length_eq_zero_iff _).mp hc)
    have hnotmem : v.name ∉ prior := by
      intro hmem
      exact List.disjoint_of_nodup_append (by simpa using hnd) hmem (by simp)
    have hcont : prior.contains v.name = false := by simpa using hnotmem
    rcases hP : componentVariablesDupPass c rest (prior ++ [v.name]) with ⟨ns, es⟩
    have hes : es = [] := by
      have h2 := ih (prior ++ [v.name]) (fun v' hv' => hne v' (by simp [hv']))
        (by rw [List.append_assoc]; simpa using hnd)
      rw [hP] at h2
      exact h2
    simp only [componentVariablesDupPass, if_pos h, hP, hcont]
    simp [hes]

/-- A clean component produces no errors at all. -/
lemma validateComponent_clean {C : Collaborators} {c : ComponentE}
    (hU : ∀ u' ns', C.uve u' ns' = []) (h : cleanComponent c) :
    validateComponent C c = [] := by
  obtain ⟨h1, _, h3, h4, h5, h6, h7⟩ := h
  have hn : ¬ c.name.length = 0 := fun hc => h1 ((string_length_eq_zero_iff _).mp hc)
  have hu1 : (componentUnitsDupPass c c.units []).2 = [] :=
    componentUnitsDupPass_clean c c.units [] (fun u hu => (h5 u hu).1) (by simpa using h4)
  have hv1 : (componentVariablesDupPass c c.vars []).2 = [] :=
    componentVariablesDupPass_clean c c.vars []
      (fun v hv => (h7 v hv).1) (by simpa using h6)
  have huflat : (c.units.map
      (fun u => validateUnits C u (componentUnitsDupPass c c.units []).1)).flatten = [] :=
    flatten_map_nil _ _ (fun u hu => validateUnits_clean hU (h5 u hu))
  have hvflat : (c.vars.map
      (fun v => validateVariable v (nonEmptyVariableNames c.vars))).flatten = [] :=
    flatten_map_nil _ _ (fun v hv => validateVariable_clean (h7 v hv))
  have hm : ¬ c.math.length ≠ 0 := by simp [h3]
  simp [validateComponent, hn, hu1, hv1, collectedVariableNames_eq, huflat, hvflat, hm]

/-- The per-units model bookkeeping step on a clean, unseen units emits no
errors and only appends the name. -/
lemma modelUnitsEntry_clean (m : ModelE) (u : UnitsE) (names refs sources : List String)
    (h : cleanUnits u) (hnm : u.name ∉ names) :
    modelUnitsEntry m u names refs sources = ([], names ++ [u.name], refs, sources) := by
  obtain ⟨h1, h2, _⟩ := h
  have hn : ¬ u.name.length = 0 := fun hc => h1 ((string_length_eq_zero_iff _).mp hc)
  simp [modelUnitsEntry, hn, h2, hnm]

/-- The model units pass 1 on clean, duplicate-free units emits no errors. -/
lemma modelUnitsPass1_clean (m : ModelE) :
    ∀ (us : List UnitsE) (names refs sources : List String),
      (∀ u ∈ us, cleanUnits u) →
      (names ++ us.map UnitsE.name).Nodup →
      (modelUnitsPass1 m us names refs sources).2 = [] := by
  intro us
  induction us with
  | nil => intro names refs sources _ _; simp [modelUnitsPass1]
  | cons u rest ih =>
    intro names refs sources hcl hnd
    have hnotmem : u.name ∉ names := by
      intro hmem
      exact List.disjoint_of_nodup_append (by simpa using hnd) hmem (by simp)
    have hE := modelUnitsEntry_clean m u names refs sources (hcl u (by simp)) hnotmem
    rcases hP : modelUnitsPass1 m rest (names ++ [u.name]) refs sources with ⟨ns, es⟩
    have hes : es = [] := by
      have h2 := ih (names ++ [u.name]) refs sources
        (fun u' hu' => hcl u' (by simp [hu']))
        (by rw [List.append_assoc]; simpa using hnd)
      rw [hP] at h2
      exact h2
    simp only [modelUnitsPass1, hE, hP]
    simp [hes]

/-- The whole model units section is silent on clean, duplicate-free
units. -/
lemma modelUnitsSection_clean (C : Collaborators) (m : ModelE)
    (hU : ∀ u' ns', C.uve u' ns' = [])
    (hcl : ∀ u ∈ m.units, cleanUnits u)
    (hnd : (m.units.map UnitsE.name).Nodup) :
    modelUnitsSection C m = [] := by
  unfold modelUnitsSection
  rw [modelUnitsPass1_clean m m.units [] [] [] hcl (by simpa using hnd),
    flatten_map_nil _ _ (fun u hu => validateUnits_clean hU (hcl u hu))]
  rfl

/-- The per-component model bookkeeping step on a clean, unseen component
emits no errors and only appends the name. -/
lemma modelComponentEntry_clean (m : ModelE) (c : ComponentE)
    (names refs sources : List String)
    (h1 : c.name ≠ "") (h2 : c.isImport = false) (hnm : c.name ∉ names) :
    modelComponentEntry m c names refs sources = ([], names ++ [c.name], refs, sources) := by
  have hn : ¬ c.name.length = 0 := fun hc => h1 ((string_length_eq_zero_iff _).mp hc)
  simp [modelComponentEntry, hn, h2, hnm]

/-- The model components loop on clean, duplicate-free components emits no
errors. -/
lemma modelComponentsLoop_clean (C : Collaborators) (m : ModelE)
    (hU : ∀ u' ns', C.uve u' ns' = []) :
    ∀ (cs : List ComponentE) (names refs sources : List String),
      (∀ c ∈ cs, cleanComponent c) →
      (names ++ cs.map ComponentE.name).Nodup →
      modelComponentsLoop C m cs names refs sources = [] := by
  intro cs
  induction cs with
  | nil => intro names refs sources _ _; simp [modelComponentsLoop]
  | cons c rest ih =>
    intro names refs sources hcl hnd
    have hc := hcl c (by simp)
    have hnotmem : c.name ∉ names := by
      intro hmem
      exact List.disjoint_of_nodup_append (by simpa using hnd) hmem (by simp)
    have hE := modelComponentEntry_clean m c names refs sources hc.1 hc.2.1 hnotmem
    have hrest := ih (names ++ [c.name]) refs sources
      (fun c' hc' => hcl c' (by simp [hc']))
      (by rw [List.append_assoc]; simpa using hnd)
    simp only [modelComponentsLoop, hE]
    simp [validateComponent_clean hU hc, hrest]

/-- C2 amended: for every model whose components, units and variables all
have non-empty, duplicate-free names, with no math, no imports, no units
bearing a reserved standard unit name, a silent per-unit collaborator
validator, and every variable carrying non-empty units, an allowed
interface value (when present) and a resolvable or convertible initial
value (when present): the error sink is empty iff the model's own name is
non-empty. -/
theorem c2_amended (C : Collaborators) (m : ModelE)
    (hU : ∀ u ns, C.uve u ns = []) (h : cleanModelH m) :
    (validateModel C m = [] ↔ m.name ≠ "") := by
  obtain ⟨h1, h2, h3, h4⟩ := h
  have hloop : modelComponentsLoop C m m.components [] [] [] = [] :=
    modelComponentsLoop_clean C m hU m.components [] [] [] h2 (by simpa using h1)
  have hsec : modelUnitsSection C m = [] := modelUnitsSection_clean C m hU h4 h3
  have hval : validateModel C m =
      (if m.name.length = 0 then
        [⟨"Model does not have a valid name attribute.", .MODEL, .modelS m⟩]
       else []) := by
    simp [validateModel, hloop, hsec]
  constructor
  · intro he heq
    rw [hval, heq] at he
    simp at he
  · intro hne
    rw [hval, if_neg (fun hc => hne ((string_length_eq_zero_iff _).mp hc))]

/-- Witness for C2's amended theorem at a concrete clean model. -/
theorem c2_amended_witness :
    (∀ u ns, trivialCollaborators.uve u ns = []) ∧ cleanModelH c2WitnessModel ∧
    (validateModel trivialCollaborators c2WitnessModel = [] ↔ c2WitnessModel.name ≠ "") :=
  ⟨fun _ _ => rfl,
   by unfold cleanModelH cleanComponent cleanUnits cleanVariable; decide,
   c2_amended trivialCollaborators c2WitnessModel (fun _ _ => rfl)
     (by unfold cleanModelH cleanComponent cleanUnits cleanVariable; decide)⟩

end LibCellML


